import Mathlib

/-!
Verification development for the medical-board-game repository.

The definitions below are a shallow embedding of `src/game_logic.py`
(class `Hospital` and class `GameEngine`).  The static configuration
tables `DEPARTMENTS` and `PATIENT_CASES` are the ones the repository
ships in `src/app.py` (`game_logic.py` imports the identical tables
from its `game_config` module).

Modelling conventions:
  * Python `int` is `Int` (scores, bed counts) or `Nat` (counters that
    only grow from 0); Python `//` is `Int.fdiv` (floor division).
  * wall-clock instants (`time.time()`) are rationals `ℚ`, supplied as
    explicit arguments where the source reads the ambient clock;
    `time.strftime` timestamps are opaque `String` arguments.
  * Python dicts keyed by strings are association lists
    `List (String × _)`; `dict.get` / `dict[k]` is `List.lookup`, and a
    `KeyError` (an uncaught exception) surfaces as `Option.none` of a
    fallible operation.
  * `random.choice(PATIENT_CASES)` is an externally supplied index,
    reduced modulo the length of the case table.
-/

namespace MedBoard

/-- One entry of the static `DEPARTMENTS` table: bed capacity plus
presentation metadata, exactly the keys of the Python dict. -/
structure DeptConfig where
  beds : Int
  color : String
  icon : String
deriving DecidableEq

/-- The `DEPARTMENTS` configuration table (src/app.py lines 29-60). -/
def DEPARTMENTS : List (String × DeptConfig) :=
  [("Emergency", ⟨4, "#FF6B6B", "🚨"⟩),
   ("Surgery", ⟨3, "#4ECDC4", "🔪"⟩),
   ("Pediatrics", ⟨3, "#FFD166", "👶"⟩),
   ("Cardiology", ⟨2, "#EF476F", "❤️"⟩),
   ("ICU", ⟨2, "#073B4C", "💀"⟩),
   ("Orthopedics", ⟨2, "#118AB2", "🦴"⟩)]

/-- A patient-case template, one element of `PATIENT_CASES`. -/
structure PatientCase where
  complaint : String
  correct_dept : String
  difficulty : String
  points : Int
  options : List String
deriving DecidableEq

/-- The `PATIENT_CASES` configuration table (src/app.py lines 63-134). -/
def PATIENT_CASES : List PatientCase :=
  [⟨"Severe chest pain radiating to left arm", "Cardiology", "Medium", 4,
    ["Cardiology", "Emergency", "Surgery"]⟩,
   ⟨"High fever and rash in child", "Pediatrics", "Easy", 3,
    ["Pediatrics", "Emergency", "ICU"]⟩,
   ⟨"Compound fracture of femur", "Orthopedics", "Medium", 4,
    ["Orthopedics", "Surgery", "Emergency"]⟩,
   ⟨"Difficulty breathing and low oxygen", "ICU", "Hard", 5,
    ["ICU", "Emergency", "Cardiology"]⟩,
   ⟨"Appendicitis symptoms", "Surgery", "Medium", 4,
    ["Surgery", "Emergency", "ICU"]⟩,
   ⟨"Multiple trauma from car accident", "Emergency", "Hard", 5,
    ["Emergency", "Surgery", "ICU"]⟩,
   ⟨"Burn injuries 30% body surface", "Surgery", "Hard", 5,
    ["Surgery", "Emergency", "ICU"]⟩,
   ⟨"Neonatal jaundice", "Pediatrics", "Easy", 3,
    ["Pediatrics", "Emergency", "ICU"]⟩,
   ⟨"Heart attack symptoms", "Cardiology", "Medium", 4,
    ["Cardiology", "Emergency", "ICU"]⟩,
   ⟨"Dislocated shoulder", "Orthopedics", "Easy", 3,
    ["Orthopedics", "Emergency", "Surgery"]⟩]

/-- An in-flight patient: a copied case template with the `id`,
`hospital` and `round` keys added by `start_new_round`. -/
structure InFlightPatient extends PatientCase where
  id : String
  hospital : String
  round : Nat
deriving DecidableEq

/-- The record `admit_patient` builds and appends (src/game_logic.py
lines 37-43). -/
structure PatientRecord where
  complaint : String
  department : String
  points : Int
  admission_time : ℚ
  status : String
deriving DecidableEq

/-- One value of the `Hospital.departments` dict (src/game_logic.py
lines 21-28). -/
structure DeptRecord where
  total_beds : Int
  occupied_beds : Int
  available_beds : Int
  patients : List PatientRecord
  icon : String
  color : String
deriving DecidableEq

/-- The mutable state of one `Hospital` object. -/
structure Hospital where
  name : String
  score : Int
  departments : List (String × DeptRecord)
  admitted_patients : List PatientRecord
  referred_count : Nat
  diagnosis_correct : Nat
  diagnosis_wrong : Nat
deriving DecidableEq

/-- `Hospital.__init__` (src/game_logic.py lines 10-28): zero score and
counters, one department record per configured department. -/
def Hospital.init (name : String) : Hospital :=
  { name := name
    score := 0
    departments := DEPARTMENTS.map (fun e =>
      (e.1, { total_beds := e.2.beds
              occupied_beds := 0
              available_beds := e.2.beds
              patients := []
              icon := e.2.icon
              color := e.2.color }))
    admitted_patients := []
    referred_count := 0
    diagnosis_correct := 0
    diagnosis_wrong := 0 }

/-- Replace the first element satisfying `p` by its image under `f`
(the functional counterpart of mutating the object a dict lookup or a
`next(...)` search returned). -/
def updateFirst (p : α → Bool) (f : α → α) : List α → List α
  | [] => []
  | a :: as => if p a then f a :: as else a :: updateFirst p f as

/-- The admitted-patient record built by `admit_patient`; `now` stands
for its `time.time()` call. -/
def admissionRecord (patient : PatientCase) (department : String) (now : ℚ) :
    PatientRecord :=
  { complaint := patient.complaint
    department := department
    points := patient.points
    admission_time := now
    status := "Admitted" }

/-- `Hospital.admit_patient` (src/game_logic.py lines 30-50).  `none`
models the `KeyError` raised when `department` is not a key of the
departments dict; otherwise the returned Bool is the Python return
value. -/
def Hospital.admit_patient (h : Hospital) (patient : PatientCase)
    (department : String) (now : ℚ) : Option (Bool × Hospital) :=
  match h.departments.lookup department with
  | none => none
  | some d =>
    if 0 < d.available_beds then
      let record := admissionRecord patient department now
      let d' := { d with occupied_beds := d.occupied_beds + 1
                         available_beds := d.available_beds - 1
                         patients := d.patients ++ [record] }
      some (true,
        { h with departments :=
                   updateFirst (fun e => e.1 == department) (fun e => (e.1, d'))
                     h.departments
                 admitted_patients := h.admitted_patients ++ [record]
                 score := h.score + patient.points
                 diagnosis_correct := h.diagnosis_correct + 1 })
    else some (false, h)

/-- `Hospital.refer_patient` (src/game_logic.py lines 52-55). -/
def Hospital.refer_patient (h : Hospital) (_patient : PatientCase) : Hospital :=
  { h with referred_count := h.referred_count + 1
           score := h.score - 1 }

/-- `Hospital.misdiagnose` (src/game_logic.py lines 57-60): Python
`patient['points'] // 2` is floor division, `Int.fdiv`. -/
def Hospital.misdiagnose (h : Hospital) (patient : PatientCase) : Hospital :=
  { h with diagnosis_wrong := h.diagnosis_wrong + 1
           score := h.score - patient.points.fdiv 2 }

/-- `Hospital.discharge_patient` (src/game_logic.py lines 62-69).
`none` models the `KeyError` on an unknown department; the inner
`Option PatientRecord` is the Python return value (the popped record,
or `None` for an out-of-range index). -/
def Hospital.discharge_patient (h : Hospital) (department : String)
    (patient_index : Int) : Option (Option PatientRecord × Hospital) :=
  match h.departments.lookup department with
  | none => none
  | some d =>
    if 0 ≤ patient_index ∧ patient_index < d.patients.length then
      match d.patients.get? patient_index.toNat with
      | none => none
      | some discharged =>
        let d' := { d with patients := d.patients.eraseIdx patient_index.toNat
                           occupied_beds := d.occupied_beds - 1
                           available_beds := d.available_beds + 1 }
        some (some discharged,
          { h with departments :=
                     updateFirst (fun e => e.1 == department)
                       (fun e => (e.1, d')) h.departments })
    else some (none, h)

/-- The outcome dict `submit_diagnosis` returns.  The failure outcome
carries only `success` and `message`; the other keys, absent from that
Python dict, are `none` there. -/
structure DiagnosisResult where
  success : Bool
  correct : Option Bool
  admitted : Option Bool
  points : Option Int
  message : String
deriving DecidableEq

/-- The failure outcome of `submit_diagnosis` (src/game_logic.py
line 128). -/
def invalidResult : DiagnosisResult :=
  { success := false, correct := none, admitted := none, points := none,
    message := "Invalid hospital or patient" }

/-- The mutable state of the `GameEngine` object. -/
structure GameEngine where
  hospitals : List Hospital
  current_round : Nat
  game_active : Bool
  current_patients : List (String × InFlightPatient)
  diagnosis_timers : List (String × ℚ)
  game_log : List String
deriving DecidableEq

/-- `GameEngine.__init__` (src/game_logic.py lines 84-90). -/
def GameEngine.empty : GameEngine :=
  { hospitals := []
    current_round := 0
    game_active := false
    current_patients := []
    diagnosis_timers := []
    game_log := [] }

/-- The log line `add_to_log` builds from a timestamp and a message. -/
def logEntry (timestamp message : String) : String :=
  "[" ++ timestamp ++ "] " ++ message

/-- `GameEngine.add_to_log` (src/game_logic.py lines 190-197): append
the timestamped line, then keep only the last 50 entries (`log[-50:]`).
`timestamp` stands for the `time.strftime` call. -/
def GameEngine.add_to_log (g : GameEngine) (timestamp message : String) :
    GameEngine :=
  let log := g.game_log ++ [logEntry timestamp message]
  { g with game_log := if 50 < log.length then log.drop (log.length - 50) else log }

/-- `GameEngine.initialize_game` (src/game_logic.py lines 92-102). -/
def GameEngine.initialize_game (g : GameEngine) (team_names : List String)
    (logts : String) : GameEngine :=
  let g' : GameEngine :=
    { g with hospitals := team_names.map Hospital.init
             current_round := 0
             game_active := true
             current_patients := []
             diagnosis_timers := []
             game_log := [] }
  g'.add_to_log logts
    ("Game started with " ++ toString team_names.length ++ " teams: "
      ++ String.intercalate ", " team_names)

/-- Store `v` under `k` in an association list used as a Python dict:
overwrite an existing binding, else append. -/
def upsert (l : List (String × α)) (k : String) (v : α) : List (String × α) :=
  if l.any (fun e => e.1 == k) then
    l.map (fun e => if e.1 == k then (k, v) else e)
  else l ++ [(k, v)]

/-- Zero-pad a number to three digits, Python `f"{n:03d}"`. -/
def pad3 (n : Nat) : String :=
  let s := toString n
  String.mk (List.replicate (3 - s.length) '0') ++ s

/-- The body of the per-hospital loop of `start_new_round`
(src/game_logic.py lines 108-118) for the hospital at position `ih.1`:
draw a case (`pick` stands for `random.choice`), extend it with the
generated id, hospital name and round, and store patient and timer. -/
def GameEngine.assign_case (round : Nat) (pick : Nat → Nat) (now : ℚ)
    (acc : GameEngine) (ih : Nat × Hospital) : GameEngine :=
  let case := PATIENT_CASES.getD (pick ih.1 % PATIENT_CASES.length)
    ⟨"", "", "", 0, []⟩
  let patient : InFlightPatient :=
    { toPatientCase := case
      id := "P" ++ pad3 round ++ "_" ++ (ih.2.name.take 3).toUpper
      hospital := ih.2.name
      round := round }
  { acc with current_patients := upsert acc.current_patients ih.2.name patient
             diagnosis_timers := upsert acc.diagnosis_timers ih.2.name now }

/-- `GameEngine.start_new_round` (src/game_logic.py lines 104-120);
`pick i` chooses (modulo the table length) the case drawn for the
`i`-th hospital, `now` is the clock read stored in the timers. -/
def GameEngine.start_new_round (g : GameEngine) (pick : Nat → Nat) (now : ℚ)
    (logts : String) : GameEngine :=
  let round := g.current_round + 1
  let g1 := (g.hospitals.enum).foldl (GameEngine.assign_case round pick now)
    { g with current_round := round }
  g1.add_to_log logts
    ("Round " ++ toString round ++ " started - New patients arrived")

/-- The common tail of the three resolved branches of `submit_diagnosis`:
write back the mutated hospital (the object found by name), log the
branch message, and pop the in-flight patient (src/game_logic.py
lines 146, 157, 168, 170-171). -/
def GameEngine.resolve_submission (g : GameEngine) (hospital_name : String)
    (h2 : Hospital) (logts logmsg : String) : GameEngine :=
  let g1 :=
    { g with hospitals :=
        updateFirst (fun h => h.name == hospital_name) (fun _ => h2) g.hospitals }
  let g2 := g1.add_to_log logts logmsg
  { g2 with current_patients :=
      g2.current_patients.filter (fun e => !(e.1 == hospital_name)) }

/-- `GameEngine.submit_diagnosis` (src/game_logic.py lines 122-173).
`diagnosis_time` is the caller-supplied submission clock, `now` the
`time.time()` read inside `admit_patient`, `logts` the log timestamp.
`none` models an uncaught `KeyError` (a missing diagnosis timer, or a
correct department that is not a configured department). -/
def GameEngine.submit_diagnosis (g : GameEngine) (hospital_name : String)
    (chosen_department : String) (diagnosis_time now : ℚ) (logts : String) :
    Option (DiagnosisResult × GameEngine) :=
  match g.hospitals.find? (fun h => h.name == hospital_name),
        g.current_patients.lookup hospital_name with
  | some hospital, some patient =>
    match g.diagnosis_timers.lookup hospital_name with
    | none => none
    | some t0 =>
      let time_bonus : Int := if diagnosis_time - t0 < 15 then 1 else 0
      if chosen_department == patient.correct_dept then
        match hospital.admit_patient patient.toPatientCase chosen_department now with
        | none => none
        | some (true, h1) =>
          let h2 := { h1 with score := h1.score + time_bonus }
          some ({ success := true, correct := some true, admitted := some true
                  points := some (patient.points + time_bonus)
                  message := "✓ Correct diagnosis! Patient admitted to "
                    ++ chosen_department ++ ". +" ++ toString patient.points
                    ++ " points" },
            g.resolve_submission hospital_name h2 logts
              (hospital_name ++ ": Correct diagnosis - " ++ patient.complaint
                ++ " → " ++ chosen_department))
        | some (false, h1) =>
          let h2 := h1.refer_patient patient.toPatientCase
          some ({ success := true, correct := some true, admitted := some false
                  points := some (-1)
                  message := "✓ Correct diagnosis but no beds in "
                    ++ chosen_department ++ ". Patient referred. -1 point" },
            g.resolve_submission hospital_name h2 logts
              (hospital_name ++ ": Correct diagnosis but no beds - patient referred"))
      else
        let h2 := hospital.misdiagnose patient.toPatientCase
        some ({ success := true, correct := some false, admitted := some false
                points := some (-(patient.points.fdiv 2))
                message := "✗ Wrong diagnosis! Should be " ++ patient.correct_dept
                  ++ ". -" ++ toString (patient.points.fdiv 2) ++ " points" },
          g.resolve_submission hospital_name h2 logts
            (hospital_name ++ ": Wrong diagnosis - thought " ++ chosen_department
              ++ ", actual " ++ patient.correct_dept))
  | _, _ => some (invalidResult, g)

/-- One row of `get_rankings` (src/game_logic.py lines 178-188). -/
structure RankingEntry where
  rank : Nat
  name : String
  score : Int
  admitted : Nat
  referred : Nat
  diagnosis_accuracy : ℚ
deriving DecidableEq

/-- `GameEngine.get_rankings` (src/game_logic.py lines 175-188).
Python `sorted(key=score, reverse=True)` is a stable descending sort,
embedded as `mergeSort` with the reversed comparison. -/
def GameEngine.get_rankings (g : GameEngine) : List RankingEntry :=
  let ranked := g.hospitals.mergeSort (fun a b => decide (b.score ≤ a.score))
  ranked.enum.map (fun p =>
    { rank := p.1 + 1
      name := p.2.name
      score := p.2.score
      admitted := p.2.admitted_patients.length
      referred := p.2.referred_count
      diagnosis_accuracy :=
        (p.2.diagnosis_correct : ℚ)
          / (max 1 (p.2.diagnosis_correct + p.2.diagnosis_wrong) : ℚ) * 100 })

/-- One invocation of a public operation, with every ambient input
(clock reads, log timestamps, random draws) made explicit.  The
`hospital*` constructors are direct calls of the `Hospital` methods on
the hospital at position `idx` of the engine's list, as made by a
caller holding that object. -/
inductive Op where
  | initializeGame (team_names : List String) (logts : String)
  | startNewRound (pick : Nat → Nat) (now : ℚ) (logts : String)
  | submitDiagnosis (hospital_name chosen_department : String)
      (diagnosis_time now : ℚ) (logts : String)
  | addToLog (timestamp message : String)
  | hospitalAdmit (idx : Nat) (patient : PatientCase) (department : String) (now : ℚ)
  | hospitalRefer (idx : Nat) (patient : PatientCase)
  | hospitalMisdiagnose (idx : Nat) (patient : PatientCase)
  | hospitalDischarge (idx : Nat) (department : String) (patient_index : Int)

/-- Whether the operation is one of the `GameEngine` methods (rather
than a direct `Hospital` method call). -/
def Op.isEngineOp : Op → Bool
  | .initializeGame _ _ => true
  | .startNewRound _ _ _ => true
  | .submitDiagnosis _ _ _ _ _ => true
  | .addToLog _ _ => true
  | _ => false

/-- Apply a fallible `Hospital` method result at position `idx` of the
engine's hospital list. -/
def applyAt (g : GameEngine) (idx : Nat) (r : Option (β × Hospital)) :
    Option GameEngine :=
  r.map (fun p => { g with hospitals := g.hospitals.set idx p.2 })

/-- Execute one operation; `none` is an uncaught Python exception (a
`KeyError`, or a method call on a hospital index the caller does not
hold). -/
def stepOp (g : GameEngine) : Op → Option GameEngine
  | .initializeGame names ts => some (g.initialize_game names ts)
  | .startNewRound pick now ts => some (g.start_new_round pick now ts)
  | .submitDiagnosis hn cd t now ts =>
      (g.submit_diagnosis hn cd t now ts).map (fun p => p.2)
  | .addToLog ts msg => some (g.add_to_log ts msg)
  | .hospitalAdmit idx p d now =>
      match g.hospitals.get? idx with
      | none => none
      | some h => applyAt g idx (h.admit_patient p d now)
  | .hospitalRefer idx p =>
      match g.hospitals.get? idx with
      | none => none
      | some h => some { g with hospitals := g.hospitals.set idx (h.refer_patient p) }
  | .hospitalMisdiagnose idx p =>
      match g.hospitals.get? idx with
      | none => none
      | some h => some { g with hospitals := g.hospitals.set idx (h.misdiagnose p) }
  | .hospitalDischarge idx d i =>
      match g.hospitals.get? idx with
      | none => none
      | some h => applyAt g idx (h.discharge_patient d i)

/-- Run a sequence of operations from a state. -/
def runOps (g : GameEngine) : List Op → Option GameEngine
  | [] => some g
  | op :: ops =>
    match stepOp g op with
    | none => none
    | some g' => runOps g' ops

/-- Run a sequence of operations while counting, for the hospital
called `name`, the `submit_diagnosis` calls that did not return the
`success = false` failure outcome.  The count restarts at
`initialize_game`, which replaces every hospital object by a fresh
one. -/
def runCount (name : String) (g : GameEngine) (n : Nat) :
    List Op → Option (GameEngine × Nat)
  | [] => some (g, n)
  | op :: ops =>
    match op with
    | .initializeGame names ts => runCount name (g.initialize_game names ts) 0 ops
    | .submitDiagnosis hn cd t now ts =>
      match g.submit_diagnosis hn cd t now ts with
      | none => none
      | some (r, g') =>
        runCount name g' (n + (if hn == name && r.success then 1 else 0)) ops
    | _ =>
      match stepOp g op with
      | none => none
      | some g' => runCount name g' n ops

/-- Fold a sequence of `add_to_log` calls, each a (timestamp, message)
pair. -/
def runLog (g : GameEngine) : List (String × String) → GameEngine
  | [] => g
  | c :: cs => runLog (g.add_to_log c.1 c.2) cs

/-- The per-department bed bookkeeping invariant: the occupied count is
the number of patient records in the beds, the available count is the
derived difference, and occupancy never exceeds capacity. -/
def DeptInv (d : DeptRecord) : Prop :=
  d.occupied_beds = d.patients.length
    ∧ d.available_beds = d.total_beds - d.occupied_beds
    ∧ d.occupied_beds ≤ d.total_beds

instance (d : DeptRecord) : Decidable (DeptInv d) := by
  unfold DeptInv; infer_instance

/-- The hospital-wide bed invariant, over every configured
department. -/
def HospInv (h : Hospital) : Prop := ∀ e ∈ h.departments, DeptInv e.2

instance (h : Hospital) : Decidable (HospInv h) := by
  unfold HospInv; infer_instance

/-- The weaker occupancy/record-count agreement of claim C10. -/
def bedsMatch (h : Hospital) : Prop :=
  ∀ e ∈ h.departments, e.2.occupied_beds = e.2.patients.length

instance (h : Hospital) : Decidable (bedsMatch h) := by
  unfold bedsMatch; infer_instance

/-- The sum of the event counters of one hospital: correct diagnoses,
wrong diagnoses and referrals. -/
def tally (h : Hospital) : Nat :=
  h.diagnosis_correct + h.diagnosis_wrong + h.referred_count

/-- The combined per-hospital invariant carried through traces. -/
def GInv (g : GameEngine) : Prop := ∀ h ∈ g.hospitals, HospInv h ∧ bedsMatch h

/-- The counter bookkeeping carried through engine-only traces: the
first hospital called `name` (the one `submit_diagnosis` mutates) has
event tally `n`. -/
def CountInv (name : String) (g : GameEngine) (n : Nat) : Prop :=
  ∀ h, g.hospitals.find? (fun x => x.name == name) = some h → tally h = n

/-- The Bool comparison `sorted(key=score, reverse=True)` sorts by. -/
def scoreDesc (a b : Hospital) : Bool := decide (b.score ≤ a.score)

/-! ### concrete inputs used to instantiate the theorems -/

/-- A sample patient case for direct Hospital-method calls. -/
def wCase : PatientCase :=
  { complaint := "Severe chest pain radiating to left arm"
    correct_dept := "Cardiology"
    difficulty := "Medium"
    points := 4
    options := ["Cardiology", "Emergency", "Surgery"] }

/-- A sample trace exercising every public operation. -/
def wOps1 : List Op :=
  [Op.initializeGame ["Alpha", "Beta"] ("10:00:00"),
   Op.startNewRound (fun _ => 0) 100 ("10:00:05"),
   Op.submitDiagnosis ("Alpha") ("Cardiology") 105 105 ("10:00:10"),
   Op.hospitalDischarge 0 ("Cardiology") 0,
   Op.hospitalRefer 1 wCase,
   Op.hospitalMisdiagnose 1 wCase,
   Op.hospitalAdmit 0 wCase ("Cardiology") 200]

/-- The engine state the sample trace reaches. -/
def wG1 : GameEngine := (runOps GameEngine.empty wOps1).getD GameEngine.empty

/-- A two-team game right after the first round started. -/
def wOpsBase : List Op :=
  [Op.initializeGame ["Alpha", "Beta"] ("10:00:00"),
   Op.startNewRound (fun _ => 0) 100 ("10:00:05")]

def wEBase : GameEngine := (runOps GameEngine.empty wOpsBase).getD GameEngine.empty

/-- The in-flight patient hospital Alpha holds in `wEBase`. -/
def wPat : InFlightPatient :=
  (wEBase.current_patients.lookup ("Alpha")).getD
    { toPatientCase := wCase, id := "", hospital := "", round := 0 }

/-- The fresh department record of the Cardiology department. -/
def wDCardio : DeptRecord :=
  { total_beds := 2, occupied_beds := 0, available_beds := 2, patients := []
    icon := "❤️", color := "#EF476F" }

/-- The fresh department record of the ICU department. -/
def wDICU : DeptRecord :=
  { total_beds := 2, occupied_beds := 0, available_beds := 2, patients := []
    icon := "💀", color := "#073B4C" }

/-- The submit outcome and state reached from `wEBase` by a correct
Cardiology diagnosis. -/
def wSub6 : DiagnosisResult × GameEngine :=
  (wEBase.submit_diagnosis ("Alpha") ("Cardiology") 105 105 ("10:00:10")).getD
    (invalidResult, GameEngine.empty)

/-- One team submitting a correct Cardiology diagnosis three rounds in
a row: the third fills no bed (capacity 2) and is referred. -/
def wOpsC7 : List Op :=
  [Op.initializeGame ["Alpha"] ("10:00:00"),
   Op.startNewRound (fun _ => 0) 100 ("10:00:05"),
   Op.submitDiagnosis ("Alpha") ("Cardiology") 105 105 ("10:00:10"),
   Op.startNewRound (fun _ => 0) 130 ("10:00:15"),
   Op.submitDiagnosis ("Alpha") ("Cardiology") 135 135 ("10:00:20"),
   Op.startNewRound (fun _ => 0) 160 ("10:00:25"),
   Op.submitDiagnosis ("Alpha") ("Cardiology") 165 165 ("10:00:30")]

def wRC7 : GameEngine × Nat :=
  (runCount ("Alpha") GameEngine.empty 0 wOpsC7).getD (GameEngine.empty, 0)

def wHC7 : Hospital :=
  (wRC7.1.hospitals.find? (fun x => x.name == "Alpha")).getD (Hospital.init "")

/-- A two-team game in registration order Beta, Alpha (both score 0). -/
def wG8 : GameEngine := GameEngine.empty.initialize_game ["Beta", "Alpha"] ("10:00:00")

/-- 51 timestamped log calls. -/
def wCalls : List (String × String) :=
  (List.range 51).map (fun i => ("10:00:07", "message " ++ toString i))

def wG9 : GameEngine := GameEngine.empty.initialize_game ["Alpha"] ("10:00:00")

/-! ### association-list and updateFirst lemmas -/

theorem lookup_mem {l : List (String × α)} {k : String} {v : α}
    (h : l.lookup k = some v) : (k, v) ∈ l := by
  induction l with
  | nil => simp [List.lookup] at h
  | cons e es ih =>
    obtain ⟨k', v'⟩ := e
    rw [List.lookup_cons] at h
    cases hk : (k == k') with
    | true =>
      rw [hk] at h
      have hk2 : k = k' := by simpa using hk
      have hv : v' = v := by simpa using h
      subst hk2; subst hv
      exact List.mem_cons_self _ _
    | false =>
      rw [hk] at h
      exact List.mem_cons_of_mem _ (ih h)

theorem mem_updateFirst {p : α → Bool} {f : α → α} {l : List α} {x : α}
    (h : x ∈ updateFirst p f l) :
    x ∈ l ∨ ∃ y, y ∈ l ∧ p y = true ∧ x = f y := by
  induction l with
  | nil => simp [updateFirst] at h
  | cons a as ih =>
    by_cases ha : p a = true
    · simp only [updateFirst, ha, if_true] at h
      rcases List.mem_cons.mp h with hx | hx
      · exact Or.inr ⟨a, List.mem_cons_self a as, ha, hx⟩
      · exact Or.inl (List.mem_cons_of_mem _ hx)
    · simp only [updateFirst, ha, if_false] at h
      rcases List.mem_cons.mp h with hx | hx
      · exact Or.inl (by simp [hx])
      · rcases ih hx with hy | ⟨y, hy, hpy, hxy⟩
        · exact Or.inl (List.mem_cons_of_mem _ hy)
        · exact Or.inr ⟨y, List.mem_cons_of_mem _ hy, hpy, hxy⟩

theorem lookup_updateFirst_self {l : List (String × α)} {k : String} {d : α}
    (h : l.lookup k = some d) (d' : α) :
    (updateFirst (fun e => e.1 == k) (fun e => (e.1, d')) l).lookup k = some d' := by
  induction l with
  | nil => simp [List.lookup] at h
  | cons e es ih =>
    obtain ⟨k', v'⟩ := e
    rw [List.lookup_cons] at h
    cases hk : (k == k') with
    | true =>
      have hk2 : k = k' := by simpa using hk
      subst hk2
      simp [updateFirst, List.lookup_cons]
    | false =>
      rw [hk] at h
      have hk' : (k' == k) = false := by
        simp only [beq_eq_false_iff_ne] at hk ⊢
        exact Ne.symm hk
      simp only [updateFirst, hk', Bool.false_eq_true, if_false]
      rw [List.lookup_cons, hk]
      exact ih h

theorem find?_updateFirst_self {p : α → Bool} {l : List α} {x y : α}
    (h : l.find? p = some x) (hy : p y = true) :
    (updateFirst p (fun _ => y) l).find? p = some y := by
  induction l with
  | nil => simp at h
  | cons a as ih =>
    cases ha : p a with
    | true =>
      simp only [updateFirst, ha, if_true]
      exact List.find?_cons_of_pos _ hy
    | false =>
      rw [List.find?_cons_of_neg _ (by simp [ha])] at h
      simp only [updateFirst, ha, Bool.false_eq_true, if_false]
      rw [List.find?_cons_of_neg _ (by simp [ha])]
      exact ih h

theorem find?_updateFirst_other {p q : α → Bool} {f : α → α} {l : List α}
    (hpq : ∀ z, q z = true → p z = false)
    (hpf : ∀ z, q z = true → p (f z) = false) :
    (updateFirst q f l).find? p = l.find? p := by
  induction l with
  | nil => simp [updateFirst]
  | cons a as ih =>
    cases ha : q a with
    | true =>
      simp only [updateFirst, ha, if_true]
      rw [List.find?_cons_of_neg _ (by simp [hpf a ha]), List.find?_cons_of_neg _ (by simp [hpq a ha])]
    | false =>
      simp only [updateFirst, ha, Bool.false_eq_true, if_false]
      cases hpa : p a with
      | true => rw [List.find?_cons_of_pos _ hpa, List.find?_cons_of_pos _ hpa]
      | false =>
        rw [List.find?_cons_of_neg _ (by simp [hpa]), List.find?_cons_of_neg _ (by simp [hpa])]
        exact ih

theorem lookup_filter_self {l : List (String × α)} {k : String} :
    (l.filter (fun e => !(e.1 == k))).lookup k = none := by
  induction l with
  | nil => simp
  | cons e es ih =>
    by_cases hk : e.1 = k
    · simpa [List.filter, hk] using ih
    · have hb : (e.1 == k) = false := by simp [hk]
      have hb' : (k == e.1) = false := by simp [Ne.symm hk]
      simp only [List.filter, hb, Bool.not_false]
      rw [show e = (e.1, e.2) from rfl, List.lookup_cons, hb']
      exact ih

/-! ### Hospital-method lemmas -/

theorem refer_patient_departments (h : Hospital) (p : PatientCase) :
    (h.refer_patient p).departments = h.departments := rfl

theorem misdiagnose_departments (h : Hospital) (p : PatientCase) :
    (h.misdiagnose p).departments = h.departments := rfl

theorem admit_patient_name {h : Hospital} {p : PatientCase} {dept : String}
    {now : ℚ} {b : Bool} {h' : Hospital}
    (hs : h.admit_patient p dept now = some (b, h')) : h'.name = h.name := by
  unfold Hospital.admit_patient at hs
  rcases hd : h.departments.lookup dept with _ | d <;> rw [hd] at hs
  · exact absurd hs (by simp)
  · by_cases hav : 0 < d.available_beds <;> simp [hav] at hs <;>
      simp [hs.2.symm]

theorem admit_patient_false {h : Hospital} {p : PatientCase} {dept : String}
    {now : ℚ} {h' : Hospital}
    (hs : h.admit_patient p dept now = some (false, h')) : h' = h := by
  unfold Hospital.admit_patient at hs
  rcases hd : h.departments.lookup dept with _ | d <;> rw [hd] at hs
  · exact absurd hs (by simp)
  · by_cases hav : 0 < d.available_beds <;> simp [hav] at hs
    exact hs.symm

theorem admit_patient_true {h : Hospital} {p : PatientCase} {dept : String}
    {now : ℚ} {h' : Hospital}
    (hs : h.admit_patient p dept now = some (true, h')) :
    ∃ d, h.departments.lookup dept = some d ∧ 0 < d.available_beds ∧
      h' = { h with
        departments :=
          updateFirst (fun e => e.1 == dept)
            (fun e => (e.1,
              { d with occupied_beds := d.occupied_beds + 1
                       available_beds := d.available_beds - 1
                       patients := d.patients ++ [admissionRecord p dept now] }))
            h.departments
        admitted_patients := h.admitted_patients ++ [admissionRecord p dept now]
        score := h.score + p.points
        diagnosis_correct := h.diagnosis_correct + 1 } := by
  unfold Hospital.admit_patient at hs
  rcases hd : h.departments.lookup dept with _ | d <;> rw [hd] at hs
  · exact absurd hs (by simp)
  · by_cases hav : 0 < d.available_beds <;> simp [hav] at hs
    exact ⟨d, rfl, hav, hs.symm⟩

theorem discharge_patient_spec {h : Hospital} {dept : String} {i : Int}
    {r : Option PatientRecord} {h' : Hospital}
    (hs : h.discharge_patient dept i = some (r, h')) :
    h' = h ∨
    ∃ d rec, h.departments.lookup dept = some d
      ∧ 0 ≤ i ∧ i < d.patients.length ∧ r = some rec
      ∧ h' = { h with
          departments :=
            updateFirst (fun e => e.1 == dept)
              (fun e => (e.1,
                { d with patients := d.patients.eraseIdx i.toNat
                         occupied_beds := d.occupied_beds - 1
                         available_beds := d.available_beds + 1 }))
              h.departments } := by
  unfold Hospital.discharge_patient at hs
  rcases hd : h.departments.lookup dept with _ | d <;> rw [hd] at hs <;>
    dsimp only at hs
  · exact absurd hs (by simp)
  · by_cases hi : 0 ≤ i ∧ i < (d.patients.length : Int)
    · rw [if_pos hi] at hs
      rcases hg : d.patients.get? i.toNat with _ | rec <;> rw [hg] at hs <;>
        dsimp only at hs
      · exact absurd hs (by simp)
      · simp at hs
        exact Or.inr ⟨d, rec, rfl, hi.1, hi.2, hs.1.symm, hs.2.symm⟩
    · rw [if_neg hi] at hs
      simp at hs
      exact Or.inl hs.2.symm

theorem hospInv_init (name : String) : HospInv (Hospital.init name) := by
  intro e he
  simp only [Hospital.init] at he
  rw [List.mem_map] at he
  obtain ⟨c, hc, rfl⟩ := he
  have hb : 0 ≤ c.2.beds := by
    revert hc
    have : ∀ c ∈ DEPARTMENTS, 0 ≤ c.2.beds := by decide
    exact this c
  exact ⟨rfl, by simp, by simpa using hb⟩

theorem bedsMatch_init (name : String) : bedsMatch (Hospital.init name) := by
  intro e he
  simp only [Hospital.init] at he
  rw [List.mem_map] at he
  obtain ⟨c, hc, rfl⟩ := he
  rfl

theorem admit_hospInv {h : Hospital} {p : PatientCase} {dept : String}
    {now : ℚ} {b : Bool} {h' : Hospital} (hinv : HospInv h)
    (hs : h.admit_patient p dept now = some (b, h')) : HospInv h' := by
  cases b with
  | false => rw [admit_patient_false hs]; exact hinv
  | true =>
    obtain ⟨d, hd, hav, rfl⟩ := admit_patient_true hs
    intro e he
    rcases mem_updateFirst he with hmem | ⟨y, hy, hpy, rfl⟩
    · exact hinv e hmem
    · have hid : DeptInv d := hinv (dept, d) (lookup_mem hd)
      obtain ⟨h1, h2, h3⟩ := hid
      refine ⟨?_, ?_, ?_⟩
      · dsimp only
        simp only [List.length_append, List.length_cons, List.length_nil]
        push_cast
        omega
      · dsimp only
        omega
      · dsimp only
        omega

theorem discharge_hospInv {h : Hospital} {dept : String} {i : Int}
    {r : Option PatientRecord} {h' : Hospital} (hinv : HospInv h)
    (hs : h.discharge_patient dept i = some (r, h')) : HospInv h' := by
  rcases discharge_patient_spec hs with rfl | ⟨d, rec, hd, h0, hlen, hr, rfl⟩
  · exact hinv
  · intro e he
    rcases mem_updateFirst he with hmem | ⟨y, hy, hpy, rfl⟩
    · exact hinv e hmem
    · have hid : DeptInv d := hinv (dept, d) (lookup_mem hd)
      obtain ⟨h1, h2, h3⟩ := hid
      have hlt : i.toNat < d.patients.length := by omega
      have herase : (d.patients.eraseIdx i.toNat).length = d.patients.length - 1 := by
        rw [List.length_eraseIdx, if_pos hlt]
      refine ⟨?_, ?_, ?_⟩
      · dsimp only
        rw [herase]
        omega
      · dsimp only
        omega
      · dsimp only
        omega

theorem admit_bedsMatch {h : Hospital} {p : PatientCase} {dept : String}
    {now : ℚ} {b : Bool} {h' : Hospital} (hinv : bedsMatch h)
    (hs : h.admit_patient p dept now = some (b, h')) : bedsMatch h' := by
  cases b with
  | false => rw [admit_patient_false hs]; exact hinv
  | true =>
    obtain ⟨d, hd, hav, rfl⟩ := admit_patient_true hs
    intro e he
    rcases mem_updateFirst he with hmem | ⟨y, hy, hpy, rfl⟩
    · exact hinv e hmem
    · have h1 := hinv (dept, d) (lookup_mem hd)
      dsimp only
      simp only [List.length_append, List.length_cons, List.length_nil]
      push_cast
      dsimp only at h1
      omega

theorem discharge_bedsMatch {h : Hospital} {dept : String} {i : Int}
    {r : Option PatientRecord} {h' : Hospital} (hinv : bedsMatch h)
    (hs : h.discharge_patient dept i = some (r, h')) : bedsMatch h' := by
  rcases discharge_patient_spec hs with rfl | ⟨d, rec, hd, h0, hlen, hr, rfl⟩
  · exact hinv
  · intro e he
    rcases mem_updateFirst he with hmem | ⟨y, hy, hpy, rfl⟩
    · exact hinv e hmem
    · have h1 := hinv (dept, d) (lookup_mem hd)
      have hlt : i.toNat < d.patients.length := by omega
      have herase : (d.patients.eraseIdx i.toNat).length = d.patients.length - 1 := by
        rw [List.length_eraseIdx, if_pos hlt]
      dsimp only
      dsimp only at h1
      rw [herase]
      omega

theorem tally_admit {h : Hospital} {p : PatientCase} {dept : String}
    {now : ℚ} {h' : Hospital}
    (hs : h.admit_patient p dept now = some (true, h')) :
    tally h' = tally h + 1 := by
  obtain ⟨d, hd, hav, rfl⟩ := admit_patient_true hs
  simp [tally]
  omega

theorem tally_refer (h : Hospital) (p : PatientCase) :
    tally (h.refer_patient p) = tally h + 1 := by
  simp [tally, Hospital.refer_patient]
  omega

theorem tally_misdiagnose (h : Hospital) (p : PatientCase) :
    tally (h.misdiagnose p) = tally h + 1 := by
  simp [tally, Hospital.misdiagnose]
  omega

theorem refer_patient_name (h : Hospital) (p : PatientCase) :
    (h.refer_patient p).name = h.name := rfl

theorem misdiagnose_name (h : Hospital) (p : PatientCase) :
    (h.misdiagnose p).name = h.name := rfl

/-! ### GameEngine field-preservation lemmas -/

theorem add_to_log_hospitals (g : GameEngine) (ts m : String) :
    (g.add_to_log ts m).hospitals = g.hospitals := rfl

theorem add_to_log_current_patients (g : GameEngine) (ts m : String) :
    (g.add_to_log ts m).current_patients = g.current_patients := rfl

theorem initialize_game_hospitals (g : GameEngine) (names : List String)
    (ts : String) :
    (g.initialize_game names ts).hospitals = names.map Hospital.init := rfl

theorem foldl_assign_hospitals (r : Nat) (pick : Nat → Nat) (now : ℚ) :
    ∀ (l : List (Nat × Hospital)) (acc : GameEngine),
      (l.foldl (GameEngine.assign_case r pick now) acc).hospitals = acc.hospitals := by
  intro l
  induction l with
  | nil => intro acc; rfl
  | cons a as ih =>
    intro acc
    rw [List.foldl_cons, ih]
    rfl

theorem start_new_round_hospitals (g : GameEngine) (pick : Nat → Nat)
    (now : ℚ) (ts : String) :
    (g.start_new_round pick now ts).hospitals = g.hospitals := by
  unfold GameEngine.start_new_round
  rw [add_to_log_hospitals, foldl_assign_hospitals]

theorem resolve_submission_hospitals (g : GameEngine) (hn : String)
    (h2 : Hospital) (ts m : String) :
    (g.resolve_submission hn h2 ts m).hospitals =
      updateFirst (fun h => h.name == hn) (fun _ => h2) g.hospitals := rfl

theorem resolve_submission_lookup_none (g : GameEngine) (hn : String)
    (h2 : Hospital) (ts m : String) :
    (g.resolve_submission hn h2 ts m).current_patients.lookup hn = none := by
  unfold GameEngine.resolve_submission
  exact lookup_filter_self

/-- `submit_diagnosis` failure branch (src/game_logic.py lines 127-128):
an unknown hospital name or no stored in-flight patient yields the
failure outcome and the unchanged engine. -/
theorem submit_invalid {g : GameEngine} {hn : String}
    (h : g.hospitals.find? (fun h => h.name == hn) = none ∨
      g.current_patients.lookup hn = none)
    (cd : String) (t now : ℚ) (ts : String) :
    g.submit_diagnosis hn cd t now ts = some (invalidResult, g) := by
  unfold GameEngine.submit_diagnosis
  rcases h with h | h
  · rw [h]
  · rcases hh : g.hospitals.find? (fun x => x.name == hn) with _ | hospital
    · rw [hh]
    · rw [hh, h]

theorem submit_timer_none {g : GameEngine} {hn : String} {hospital : Hospital}
    {patient : InFlightPatient}
    (hh : g.hospitals.find? (fun h => h.name == hn) = some hospital)
    (hp : g.current_patients.lookup hn = some patient)
    (ht : g.diagnosis_timers.lookup hn = none)
    (cd : String) (t now : ℚ) (ts : String) :
    g.submit_diagnosis hn cd t now ts = none := by
  unfold GameEngine.submit_diagnosis
  rw [hh, hp]
  dsimp only
  rw [ht]

/-- `submit_diagnosis` wrong-diagnosis branch (src/game_logic.py
lines 158-168). -/
theorem submit_wrong {g : GameEngine} {hn cd : String} {hospital : Hospital}
    {patient : InFlightPatient} {t0 : ℚ}
    (hh : g.hospitals.find? (fun h => h.name == hn) = some hospital)
    (hp : g.current_patients.lookup hn = some patient)
    (ht : g.diagnosis_timers.lookup hn = some t0)
    (hb : (cd == patient.correct_dept) = false)
    (t now : ℚ) (ts : String) :
    g.submit_diagnosis hn cd t now ts =
      some ({ success := true, correct := some false, admitted := some false
              points := some (-(patient.points.fdiv 2))
              message := "✗ Wrong diagnosis! Should be " ++ patient.correct_dept
                ++ ". -" ++ toString (patient.points.fdiv 2) ++ " points" },
        g.resolve_submission hn (hospital.misdiagnose patient.toPatientCase) ts
          (hn ++ ": Wrong diagnosis - thought " ++ cd ++ ", actual "
            ++ patient.correct_dept)) := by
  unfold GameEngine.submit_diagnosis
  rw [hh, hp]
  dsimp only
  rw [ht]
  dsimp only
  rw [hb]
  simp only [Bool.false_eq_true, if_false]

/-- `submit_diagnosis` correct-diagnosis-and-admitted branch
(src/game_logic.py lines 137-146). -/
theorem submit_admitted {g : GameEngine} {hn cd : String} {hospital : Hospital}
    {patient : InFlightPatient} {t0 : ℚ} {h1 : Hospital} {now : ℚ}
    (hh : g.hospitals.find? (fun h => h.name == hn) = some hospital)
    (hp : g.current_patients.lookup hn = some patient)
    (ht : g.diagnosis_timers.lookup hn = some t0)
    (hb : (cd == patient.correct_dept) = true)
    (ha : hospital.admit_patient patient.toPatientCase cd now = some (true, h1))
    (t : ℚ) (ts : String) :
    g.submit_diagnosis hn cd t now ts =
      some ({ success := true, correct := some true, admitted := some true
              points := some (patient.points + (if t - t0 < 15 then 1 else 0))
              message := "✓ Correct diagnosis! Patient admitted to "
                ++ cd ++ ". +" ++ toString patient.points ++ " points" },
        g.resolve_submission hn
          { h1 with score := h1.score + (if t - t0 < 15 then 1 else 0) } ts
          (hn ++ ": Correct diagnosis - " ++ patient.complaint ++ " → " ++ cd)) := by
  unfold GameEngine.submit_diagnosis
  rw [hh, hp]
  dsimp only
  rw [ht]
  dsimp only
  rw [hb]
  simp only [if_true]
  rw [ha]

/-- `submit_diagnosis` correct-diagnosis-but-no-beds branch
(src/game_logic.py lines 147-157). -/
theorem submit_referred {g : GameEngine} {hn cd : String} {hospital : Hospital}
    {patient : InFlightPatient} {t0 : ℚ} {h1 : Hospital} {now : ℚ}
    (hh : g.hospitals.find? (fun h => h.name == hn) = some hospital)
    (hp : g.current_patients.lookup hn = some patient)
    (ht : g.diagnosis_timers.lookup hn = some t0)
    (hb : (cd == patient.correct_dept) = true)
    (ha : hospital.admit_patient patient.toPatientCase cd now = some (false, h1))
    (t : ℚ) (ts : String) :
    g.submit_diagnosis hn cd t now ts =
      some ({ success := true, correct := some true, admitted := some false
              points := some (-1)
              message := "✓ Correct diagnosis but no beds in " ++ cd
                ++ ". Patient referred. -1 point" },
        g.resolve_submission hn (h1.refer_patient patient.toPatientCase) ts
          (hn ++ ": Correct diagnosis but no beds - patient referred")) := by
  unfold GameEngine.submit_diagnosis
  rw [hh, hp]
  dsimp only
  rw [ht]
  dsimp only
  rw [hb]
  simp only [if_true]
  rw [ha]

theorem submit_admit_none {g : GameEngine} {hn cd : String} {hospital : Hospital}
    {patient : InFlightPatient} {t0 : ℚ} {now : ℚ}
    (hh : g.hospitals.find? (fun h => h.name == hn) = some hospital)
    (hp : g.current_patients.lookup hn = some patient)
    (ht : g.diagnosis_timers.lookup hn = some t0)
    (hb : (cd == patient.correct_dept) = true)
    (ha : hospital.admit_patient patient.toPatientCase cd now = none)
    (t : ℚ) (ts : String) :
    g.submit_diagnosis hn cd t now ts = none := by
  unfold GameEngine.submit_diagnosis
  rw [hh, hp]
  dsimp only
  rw [ht]
  dsimp only
  rw [hb]
  simp only [if_true]
  rw [ha]

theorem misdiagnose_hospInv {h : Hospital} (p : PatientCase)
    (hinv : HospInv h) : HospInv (h.misdiagnose p) := fun e he => hinv e he

theorem refer_hospInv {h : Hospital} (p : PatientCase)
    (hinv : HospInv h) : HospInv (h.refer_patient p) := fun e he => hinv e he

theorem misdiagnose_bedsMatch {h : Hospital} (p : PatientCase)
    (hinv : bedsMatch h) : bedsMatch (h.misdiagnose p) := fun e he => hinv e he

theorem refer_bedsMatch {h : Hospital} (p : PatientCase)
    (hinv : bedsMatch h) : bedsMatch (h.refer_patient p) := fun e he => hinv e he

/-- Case analysis on a `submit_diagnosis` call that returned a result:
either a lookup failed and the state is unchanged, or the call resolved
into one of the three outcome branches, writing back through
`resolve_submission` a hospital whose event tally grew by one and whose
bed invariants are preserved. -/
theorem submit_diagnosis_cases {g : GameEngine} {hn cd : String}
    {t now : ℚ} {ts : String} {r : DiagnosisResult} {g' : GameEngine}
    (hs : g.submit_diagnosis hn cd t now ts = some (r, g')) :
    (r = invalidResult ∧ g' = g ∧
      (g.hospitals.find? (fun h => h.name == hn) = none ∨
        g.current_patients.lookup hn = none)) ∨
    ∃ hospital patient t0 h2 logmsg,
      g.hospitals.find? (fun h => h.name == hn) = some hospital ∧
      g.current_patients.lookup hn = some patient ∧
      g.diagnosis_timers.lookup hn = some t0 ∧
      r.success = true ∧
      g' = g.resolve_submission hn h2 ts logmsg ∧
      h2.name = hospital.name ∧
      tally h2 = tally hospital + 1 ∧
      (HospInv hospital → HospInv h2) ∧
      (bedsMatch hospital → bedsMatch h2) := by
  rcases hh : g.hospitals.find? (fun h => h.name == hn) with _ | hospital
  · have he := (submit_invalid (Or.inl hh) cd t now ts).symm.trans hs
    simp at he
    exact Or.inl ⟨he.1.symm, he.2.symm, Or.inl hh⟩
  · rcases hp : g.current_patients.lookup hn with _ | patient
    · have he := (submit_invalid (Or.inr hp) cd t now ts).symm.trans hs
      simp at he
      exact Or.inl ⟨he.1.symm, he.2.symm, Or.inr rfl⟩
    · rcases ht : g.diagnosis_timers.lookup hn with _ | t0
      · exact absurd ((submit_timer_none hh hp ht cd t now ts).symm.trans hs) (by simp)
      · cases hb : (cd == patient.correct_dept)
        · have he := (submit_wrong hh hp ht hb t now ts).symm.trans hs
          simp only [Option.some.injEq, Prod.mk.injEq] at he
          refine Or.inr ⟨hospital, patient, t0,
            hospital.misdiagnose patient.toPatientCase, _, hh, rfl, rfl, ?_,
            he.2.symm, misdiagnose_name _ _, tally_misdiagnose _ _,
            misdiagnose_hospInv _, misdiagnose_bedsMatch _⟩
          rw [← he.1]
        · rcases ha : hospital.admit_patient patient.toPatientCase cd now with _ | ⟨b, h1⟩
          · exact absurd ((submit_admit_none hh hp ht hb ha t ts).symm.trans hs)
              (by simp)
          · cases b
            · have he := (submit_referred hh hp ht hb ha t ts).symm.trans hs
              simp only [Option.some.injEq, Prod.mk.injEq] at he
              have hfalse := admit_patient_false ha
              refine Or.inr ⟨hospital, patient, t0,
                h1.refer_patient patient.toPatientCase, _, hh, rfl, rfl, ?_,
                he.2.symm, ?_, ?_,
                fun hi => refer_hospInv _ (hfalse ▸ hi),
                fun hi => refer_bedsMatch _ (hfalse ▸ hi)⟩
              · rw [← he.1]
              · rw [refer_patient_name, hfalse]
              · rw [tally_refer, hfalse]
            · have he := (submit_admitted hh hp ht hb ha t ts).symm.trans hs
              simp only [Option.some.injEq, Prod.mk.injEq] at he
              refine Or.inr ⟨hospital, patient, t0,
                { h1 with score := h1.score + (if t - t0 < 15 then 1 else 0) }, _,
                hh, rfl, rfl, ?_, he.2.symm, ?_, ?_, ?_, ?_⟩
              · rw [← he.1]
              · simpa using admit_patient_name ha
              · have ht2 := tally_admit ha
                simp only [tally] at ht2 ⊢
                omega
              · exact fun hi e hmem => admit_hospInv hi ha e hmem
              · exact fun hi e hmem => admit_bedsMatch hi ha e hmem

theorem stepOp_inv {g g' : GameEngine} {op : Op} (hs : stepOp g op = some g')
    (hg : GInv g) : GInv g' := by
  cases op with
  | initializeGame names ts =>
    simp only [stepOp, Option.some.injEq] at hs
    subst hs
    intro h hmem
    rw [GameEngine.initialize_game, add_to_log_hospitals] at hmem
    dsimp only at hmem
    rw [List.mem_map] at hmem
    obtain ⟨nm, hnm, rfl⟩ := hmem
    exact ⟨hospInv_init nm, bedsMatch_init nm⟩
  | startNewRound pick now ts =>
    simp only [stepOp, Option.some.injEq] at hs
    subst hs
    intro h hmem
    rw [start_new_round_hospitals] at hmem
    exact hg h hmem
  | addToLog ts m =>
    simp only [stepOp, Option.some.injEq] at hs
    subst hs
    intro h hmem
    rw [add_to_log_hospitals] at hmem
    exact hg h hmem
  | submitDiagnosis hn cd t now ts =>
    simp only [stepOp] at hs
    rw [Option.map_eq_some'] at hs
    obtain ⟨⟨r, g2⟩, hsub, hg2⟩ := hs
    subst hg2
    rcases submit_diagnosis_cases hsub with ⟨hr, rfl, hfail⟩ |
      ⟨hospital, patient, t0, h2, logmsg, hh, hp, ht, hrs, rfl, hname, htl, hinv, hbm⟩
    · exact hg
    · intro h hmem
      rw [resolve_submission_hospitals] at hmem
      rcases mem_updateFirst hmem with hold | ⟨y, hy, hpy, rfl⟩
      · exact hg h hold
      · have hmem' := List.mem_of_find?_eq_some hh
        exact ⟨hinv (hg hospital hmem').1, hbm (hg hospital hmem').2⟩
  | hospitalAdmit idx p d now =>
    simp only [stepOp] at hs
    rcases hget : g.hospitals.get? idx with _ | h0 <;> rw [hget] at hs
    · exact absurd hs (by simp)
    · simp only [applyAt, Option.map_eq_some'] at hs
      obtain ⟨⟨b, h1⟩, ha, hg'⟩ := hs
      subst hg'
      intro h hmem
      dsimp only at hmem
      rcases List.mem_or_eq_of_mem_set hmem with hold | rfl
      · exact hg h hold
      · have h0mem := List.get?_mem hget
        exact ⟨admit_hospInv (hg h0 h0mem).1 ha, admit_bedsMatch (hg h0 h0mem).2 ha⟩
  | hospitalRefer idx p =>
    simp only [stepOp] at hs
    rcases hget : g.hospitals.get? idx with _ | h0 <;> rw [hget] at hs
    · exact absurd hs (by simp)
    · simp only [Option.some.injEq] at hs
      subst hs
      intro h hmem
      dsimp only at hmem
      rcases List.mem_or_eq_of_mem_set hmem with hold | rfl
      · exact hg h hold
      · have h0mem := List.get?_mem hget
        exact ⟨refer_hospInv _ (hg h0 h0mem).1, refer_bedsMatch _ (hg h0 h0mem).2⟩
  | hospitalMisdiagnose idx p =>
    simp only [stepOp] at hs
    rcases hget : g.hospitals.get? idx with _ | h0 <;> rw [hget] at hs
    · exact absurd hs (by simp)
    · simp only [Option.some.injEq] at hs
      subst hs
      intro h hmem
      dsimp only at hmem
      rcases List.mem_or_eq_of_mem_set hmem with hold | rfl
      · exact hg h hold
      · have h0mem := List.get?_mem hget
        exact ⟨misdiagnose_hospInv _ (hg h0 h0mem).1, misdiagnose_bedsMatch _ (hg h0 h0mem).2⟩
  | hospitalDischarge idx d i =>
    simp only [stepOp] at hs
    rcases hget : g.hospitals.get? idx with _ | h0 <;> rw [hget] at hs
    · exact absurd hs (by simp)
    · simp only [applyAt, Option.map_eq_some'] at hs
      obtain ⟨⟨rr, h1⟩, ha, hg'⟩ := hs
      subst hg'
      intro h hmem
      dsimp only at hmem
      rcases List.mem_or_eq_of_mem_set hmem with hold | rfl
      · exact hg h hold
      · have h0mem := List.get?_mem hget
        exact ⟨discharge_hospInv (hg h0 h0mem).1 ha, discharge_bedsMatch (hg h0 h0mem).2 ha⟩

theorem runOps_inv : ∀ {ops : List Op} {g g' : GameEngine},
    runOps g ops = some g' → GInv g → GInv g' := by
  intro ops
  induction ops with
  | nil =>
    intro g g' hr hg
    simp only [runOps, Option.some.injEq] at hr
    exact hr ▸ hg
  | cons op ops ih =>
    intro g g' hr hg
    simp only [runOps] at hr
    rcases hstep : stepOp g op with _ | g1 <;> rw [hstep] at hr
    · exact absurd hr (by simp)
    · exact ih hr (stepOp_inv hstep hg)

theorem countInv_init_game (name : String) (g : GameEngine)
    (names : List String) (ts : String) :
    CountInv name (g.initialize_game names ts) 0 := by
  intro h hf
  have hmem := List.mem_of_find?_eq_some hf
  rw [GameEngine.initialize_game, add_to_log_hospitals] at hmem
  dsimp only at hmem
  rw [List.mem_map] at hmem
  obtain ⟨nm, hnm, rfl⟩ := hmem
  rfl

theorem runCount_inv (name : String) : ∀ {ops : List Op} {g : GameEngine}
    {n : Nat} {g' : GameEngine} {m : Nat},
    (∀ op ∈ ops, op.isEngineOp = true) →
    runCount name g n ops = some (g', m) → CountInv name g n →
    CountInv name g' m := by
  intro ops
  induction ops with
  | nil =>
    intro g n g' m heng hr hc
    simp only [runCount, Option.some.injEq, Prod.mk.injEq] at hr
    rw [← hr.1, ← hr.2]
    exact hc
  | cons op ops ih =>
    intro g n g' m heng hr hc
    have hengop := heng op (List.mem_cons_self _ _)
    have hengrest : ∀ o ∈ ops, o.isEngineOp = true :=
      fun o ho => heng o (List.mem_cons_of_mem _ ho)
    cases op with
    | initializeGame names ts =>
      simp only [runCount] at hr
      exact ih hengrest hr (countInv_init_game name g names ts)
    | startNewRound pick now ts =>
      simp only [runCount, stepOp] at hr
      refine ih hengrest hr ?_
      intro h hf
      rw [start_new_round_hospitals] at hf
      exact hc h hf
    | addToLog ts m0 =>
      simp only [runCount, stepOp] at hr
      refine ih hengrest hr ?_
      intro h hf
      rw [add_to_log_hospitals] at hf
      exact hc h hf
    | submitDiagnosis hn cd t now ts =>
      simp only [runCount] at hr
      rcases hsub : g.submit_diagnosis hn cd t now ts with _ | ⟨r, g2⟩ <;>
        rw [hsub] at hr <;> dsimp only at hr
      · exact absurd hr (by simp)
      · rcases submit_diagnosis_cases hsub with ⟨hrinv, rfl, hfail⟩ |
          ⟨hospital, patient, t0, h2, logmsg, hh, hp, ht, hrs, rfl, hname, htl, hinv, hbm⟩
        · have hrf : r.success = false := by rw [hrinv]; rfl
          rw [hrf] at hr
          simp only [Bool.and_false, if_false, Nat.add_zero] at hr
          exact ih hengrest hr hc
        · rw [hrs] at hr
          simp only [Bool.and_true] at hr
          have hhn : (hospital.name == hn) = true := by
            have := List.find?_some hh
            simpa using this
          cases hcmp : (hn == name)
          · rw [hcmp] at hr
            simp only [if_false, Bool.false_eq_true, Nat.add_zero] at hr
            refine ih hengrest hr ?_
            intro h hf
            rw [resolve_submission_hospitals] at hf
            rw [find?_updateFirst_other ?_ ?_] at hf
            · exact hc h hf
            · intro z hz
              simp only [beq_iff_eq] at hz hhn hcmp ⊢
              simp only [beq_eq_false_iff_ne] at hcmp
              simp only [beq_eq_false_iff_ne, ne_eq]
              rw [hz]
              exact hcmp
            · intro z hz
              simp only [beq_iff_eq] at hhn
              simp only [beq_eq_false_iff_ne] at hcmp
              simp only [beq_eq_false_iff_ne, ne_eq, hname, hhn]
              exact hcmp
          · rw [hcmp] at hr
            simp only [if_true] at hr
            have hb2 : (h2.name == name) = true := by
              simp only [beq_iff_eq] at hhn hcmp ⊢
              rw [hname, hhn, hcmp]
            have hpred : (fun x : Hospital => x.name == name) =
                (fun x : Hospital => x.name == hn) := by
              funext x
              simp only [beq_iff_eq] at hcmp
              rw [hcmp]
            refine ih hengrest hr ?_
            intro h hf
            rw [resolve_submission_hospitals, hpred] at hf
            rw [find?_updateFirst_self hh (by rw [hname]; exact hhn)] at hf
            have hh2 : h = h2 := by simpa using hf.symm
            subst hh2
            rw [htl, hc hospital ?_]
            rw [hpred]
            exact hh
    | hospitalAdmit idx p d now => exact absurd hengop (by simp [Op.isEngineOp])
    | hospitalRefer idx p => exact absurd hengop (by simp [Op.isEngineOp])
    | hospitalMisdiagnose idx p => exact absurd hengop (by simp [Op.isEngineOp])
    | hospitalDischarge idx d i => exact absurd hengop (by simp [Op.isEngineOp])

/-! ### activity-log lemmas -/

theorem add_to_log_length_le (g : GameEngine) (ts m : String) :
    ((g.add_to_log ts m).game_log).length ≤ 50 := by
  unfold GameEngine.add_to_log
  dsimp only
  by_cases hc : 50 < (g.game_log ++ [logEntry ts m]).length
  · rw [if_pos hc, List.length_drop]
    omega
  · rw [if_neg hc]
    omega

theorem add_to_log_getLast (g : GameEngine) (ts m : String) :
    ((g.add_to_log ts m).game_log).getLast? = some (logEntry ts m) := by
  unfold GameEngine.add_to_log
  dsimp only
  by_cases hc : 50 < (g.game_log ++ [logEntry ts m]).length
  · rw [if_pos hc]
    have hlen : (g.game_log ++ [logEntry ts m]).length - 50 ≤ g.game_log.length := by
      rw [List.length_append]
      simp
    rw [List.drop_append_of_le_length hlen, List.getLast?_append]
    rfl
  · rw [if_neg hc, List.getLast?_append]
    rfl

theorem runLog_length_le {g : GameEngine} (calls : List (String × String))
    (hb : g.game_log.length ≤ 50) :
    ((runLog g calls).game_log).length ≤ 50 := by
  induction calls generalizing g with
  | nil => exact hb
  | cons c cs ih => exact ih (add_to_log_length_le g c.1 c.2)

theorem runLog_game_log (calls : List (String × String)) :
    ∀ (g : GameEngine), g.game_log.length ≤ 50 →
    (runLog g calls).game_log =
      (g.game_log ++ calls.map (fun c => logEntry c.1 c.2)).drop
        ((g.game_log.length + calls.length) - 50) := by
  induction calls with
  | nil =>
    intro g hb
    simp [runLog, Nat.sub_eq_zero_of_le hb]
  | cons c cs ih =>
    intro g hb
    show (runLog (g.add_to_log c.1 c.2) cs).game_log = _
    by_cases hc : 50 < (g.game_log ++ [logEntry c.1 c.2]).length
    · have h50 : g.game_log.length = 50 := by
        rw [List.length_append] at hc
        simp at hc
        omega
      have hlog : (g.add_to_log c.1 c.2).game_log =
          (g.game_log ++ [logEntry c.1 c.2]).drop 1 := by
        unfold GameEngine.add_to_log
        dsimp only
        rw [if_pos hc, List.length_append, h50]
        simp
      have hlen : (g.add_to_log c.1 c.2).game_log.length = 50 := by
        rw [hlog, List.length_drop, List.length_append, h50]
        simp
      rw [ih _ (le_of_eq hlen), hlog]
      have hdl : ((g.game_log ++ [logEntry c.1 c.2]).drop 1).length = 50 := by
        rw [List.length_drop, List.length_append, h50]
        simp
      rw [hdl]
      have hix : 50 + cs.length - 50 = cs.length := by omega
      rw [hix]
      have hstep : (g.game_log ++ [logEntry c.1 c.2]).drop 1 ++
          cs.map (fun c => logEntry c.1 c.2) =
          ((g.game_log ++ [logEntry c.1 c.2]) ++
            cs.map (fun c => logEntry c.1 c.2)).drop 1 :=
        (List.drop_append_of_le_length (by rw [List.length_append]; omega)).symm
      rw [hstep, List.drop_drop]
      have hassoc : g.game_log ++ [logEntry c.1 c.2] ++
          cs.map (fun c => logEntry c.1 c.2) =
          g.game_log ++ (c :: cs).map (fun c => logEntry c.1 c.2) := by
        simp
      rw [hassoc]
      congr 1
      simp only [h50, List.length_cons]
      omega
    · have hlog : (g.add_to_log c.1 c.2).game_log =
          g.game_log ++ [logEntry c.1 c.2] := by
        unfold GameEngine.add_to_log
        dsimp only
        rw [if_neg hc]
      have hlen : (g.add_to_log c.1 c.2).game_log.length ≤ 50 := by
        rw [hlog]
        omega
      rw [ih _ hlen, hlog]
      rw [List.map_cons, List.append_assoc, List.singleton_append,
        List.length_append, List.length_cons]
      congr 1
      simp
      omega

theorem initialize_game_game_log (g : GameEngine) (names : List String)
    (ts : String) :
    (g.initialize_game names ts).game_log =
      [logEntry ts ("Game started with " ++ toString names.length ++ " teams: "
        ++ String.intercalate ", " names)] := rfl

/-! ### ranking lemmas -/

theorem scoreDesc_trans : ∀ a b c : Hospital,
    scoreDesc a b = true → scoreDesc b c = true → scoreDesc a c = true := by
  intro a b c hab hbc
  simp only [scoreDesc, decide_eq_true_eq] at hab hbc ⊢
  exact le_trans hbc hab

theorem scoreDesc_total : ∀ a b : Hospital,
    (scoreDesc a b || scoreDesc b a) = true := by
  intro a b
  simp only [scoreDesc, Bool.or_eq_true, decide_eq_true_eq]
  exact Int.le_total b.score a.score

theorem get_rankings_eq (g : GameEngine) :
    g.get_rankings = (g.hospitals.mergeSort scoreDesc).enum.map (fun p =>
      { rank := p.1 + 1
        name := p.2.name
        score := p.2.score
        admitted := p.2.admitted_patients.length
        referred := p.2.referred_count
        diagnosis_accuracy :=
          (p.2.diagnosis_correct : ℚ)
            / (max 1 (p.2.diagnosis_correct + p.2.diagnosis_wrong) : ℚ) * 100 }) := rfl

theorem mergeSort_pairwise (l : List Hospital) :
    (l.mergeSort scoreDesc).Pairwise (fun a b => b.score ≤ a.score) := by
  have hp := List.sorted_mergeSort scoreDesc_trans scoreDesc_total l
  exact hp.imp (fun hab => by simpa [scoreDesc] using hab)

theorem pairwise_enum {l : List Hospital}
    (hp : l.Pairwise (fun a b => b.score ≤ a.score)) :
    l.enum.Pairwise (fun p q => q.2.score ≤ p.2.score) := by
  have := (List.pairwise_map (f := (Prod.snd : Nat × Hospital → Hospital))
    (R := fun a b => b.score ≤ a.score) (l := l.enum)).mp
  rw [List.enum_map_snd] at this
  exact this hp

/-- The subsequence of entries carrying one fixed score, with `enum`
indices stripped - induction helper for sort stability. -/
theorem filter_enumFrom_map (s : Int) :
    ∀ (l : List Hospital) (i : Nat),
    (((l.enumFrom i).map (fun p : Nat × Hospital =>
        { rank := p.1 + 1
          name := p.2.name
          score := p.2.score
          admitted := p.2.admitted_patients.length
          referred := p.2.referred_count
          diagnosis_accuracy :=
            (p.2.diagnosis_correct : ℚ)
              / (max 1 (p.2.diagnosis_correct + p.2.diagnosis_wrong) : ℚ)
              * 100 : RankingEntry })).filter
      (fun r => r.score == s)).map (fun r => r.name) =
    ((l.filter (fun h => h.score == s)).map (fun h => h.name)) := by
  intro l
  induction l with
  | nil => intro i; rfl
  | cons h t ih =>
    intro i
    rw [List.enumFrom_cons, List.map_cons, List.filter_cons, List.filter_cons]
    cases hsc : (h.score == s) with
    | true =>
      simp only [hsc, if_true]
      rw [List.map_cons, ih (i + 1)]
      rfl
    | false =>
      simp only [hsc, Bool.false_eq_true, if_false]
      exact ih (i + 1)

/-- Stability of the embedded sort: the subsequence of hospitals with
any fixed score is untouched by `mergeSort scoreDesc`. -/
theorem mergeSort_filter_score (l : List Hospital) (s : Int) :
    (l.mergeSort scoreDesc).filter (fun h => h.score == s) =
      l.filter (fun h => h.score == s) := by
  set p : Hospital → Bool := fun h => h.score == s with hp
  have hc : (l.filter p).Pairwise (fun a b => scoreDesc a b = true) := by
    apply List.pairwise_of_forall_mem_list
    intro a ha b hb
    have ha' := List.of_mem_filter ha
    have hb' := List.of_mem_filter hb
    simp only [hp, beq_iff_eq] at ha' hb'
    simp [scoreDesc, ha', hb']
  have hsl : (l.filter p).Sublist (l.mergeSort scoreDesc) :=
    List.sublist_mergeSort scoreDesc_trans scoreDesc_total hc (List.filter_sublist l)
  have hfil : (l.filter p).filter p = l.filter p := by
    rw [List.filter_eq_self]
    intro a ha
    exact List.of_mem_filter ha
  have hsub2 : (l.filter p).Sublist ((l.mergeSort scoreDesc).filter p) := by
    have := List.Sublist.filter p hsl
    rwa [hfil] at this
  have hperm : ((l.mergeSort scoreDesc).filter p).Perm (l.filter p) :=
    (List.mergeSort_perm l scoreDesc).filter p
  exact (hsub2.eq_of_length hperm.length_eq.symm).symm

/-- A successful admission characterized field by field: the precise
postcondition of `admit_patient` when the department has a free bed. -/
theorem admit_patient_succeeds {h : Hospital} (p : PatientCase) {dept : String}
    (now : ℚ) {d : DeptRecord} (hd : h.departments.lookup dept = some d)
    (hav : 0 < d.available_beds) :
    ∃ h', h.admit_patient p dept now = some (true, h') ∧
      h'.departments.lookup dept = some
        { d with occupied_beds := d.occupied_beds + 1
                 available_beds := d.available_beds - 1
                 patients := d.patients ++ [admissionRecord p dept now] } ∧
      h'.admitted_patients = h.admitted_patients ++ [admissionRecord p dept now] ∧
      h'.score = h.score + p.points ∧
      h'.diagnosis_correct = h.diagnosis_correct + 1 ∧
      h'.name = h.name ∧ h'.referred_count = h.referred_count ∧
      h'.diagnosis_wrong = h.diagnosis_wrong := by
  refine ⟨{ h with
      departments := updateFirst (fun e => e.1 == dept)
        (fun e => (e.1,
          { d with occupied_beds := d.occupied_beds + 1
                   available_beds := d.available_beds - 1
                   patients := d.patients ++ [admissionRecord p dept now] }))
        h.departments
      admitted_patients := h.admitted_patients ++ [admissionRecord p dept now]
      score := h.score + p.points
      diagnosis_correct := h.diagnosis_correct + 1 },
    ?_, ?_, rfl, rfl, rfl, rfl, rfl, rfl⟩
  · unfold Hospital.admit_patient
    rw [hd]
    dsimp only
    rw [if_pos hav]
  · exact lookup_updateFirst_self hd _

/-! ### the claims -/

/-- C1: for every hospital and every configured department, after any
sequence of the public operations (Hospital construction,
admit_patient, refer_patient, misdiagnose, discharge_patient, and the
GameEngine operations that call them), the state satisfies
0 ≤ occupied_beds ≤ total_beds and
available_beds = total_beds − occupied_beds. -/
theorem C1_bed_counts_invariant :
    (∀ name : String, ∀ e ∈ (Hospital.init name).departments,
      0 ≤ e.2.occupied_beds ∧ e.2.occupied_beds ≤ e.2.total_beds ∧
        e.2.available_beds = e.2.total_beds - e.2.occupied_beds) ∧
    ∀ (ops : List Op) (g' : GameEngine), runOps GameEngine.empty ops = some g' →
      ∀ h ∈ g'.hospitals, ∀ e ∈ h.departments,
        0 ≤ e.2.occupied_beds ∧ e.2.occupied_beds ≤ e.2.total_beds ∧
          e.2.available_beds = e.2.total_beds - e.2.occupied_beds := by
  constructor
  · intro name e he
    obtain ⟨h1, h2, h3⟩ := hospInv_init name e he
    exact ⟨by rw [h1]; exact Int.natCast_nonneg _, h3, h2⟩
  · intro ops g' hr h hmem e he
    have hg : GInv GameEngine.empty := by
      intro h0 hmem0
      exact absurd hmem0 (by simp [GameEngine.empty])
    obtain ⟨h1, h2, h3⟩ := (runOps_inv hr hg h hmem).1 e he
    exact ⟨by rw [h1]; exact Int.natCast_nonneg _, h3, h2⟩

/-- C1 witness: the invariant evaluated on the state a concrete trace
reaches. -/
theorem C1_bed_counts_invariant_witness :
    runOps GameEngine.empty wOps1 = some wG1 ∧
    ∀ h ∈ wG1.hospitals, ∀ e ∈ h.departments,
      0 ≤ e.2.occupied_beds ∧ e.2.occupied_beds ≤ e.2.total_beds ∧
        e.2.available_beds = e.2.total_beds - e.2.occupied_beds :=
  ⟨by rfl, C1_bed_counts_invariant.2 wOps1 wG1 (by rfl)⟩

/-- C10 (implicit): for every hospital and configured department, the
occupied_beds count equals the length of the department's patients
list at all times - it holds at Hospital construction (both zero), is
preserved by admit_patient and by discharge_patient (which does
nothing for an out-of-range index), and holds along every engine
trace. -/
theorem C10_occupied_matches_records :
    (∀ name : String, ∀ e ∈ (Hospital.init name).departments,
      e.2.occupied_beds = 0 ∧ e.2.patients = []) ∧
    (∀ (h : Hospital) (p : PatientCase) (dept : String) (now : ℚ)
      (b : Bool) (h' : Hospital), bedsMatch h →
      h.admit_patient p dept now = some (b, h') → bedsMatch h') ∧
    (∀ (h : Hospital) (dept : String) (i : Int) (r : Option PatientRecord)
      (h' : Hospital), bedsMatch h →
      h.discharge_patient dept i = some (r, h') → bedsMatch h') ∧
    (∀ (h : Hospital) (dept : String) (i : Int) (d : DeptRecord),
      h.departments.lookup dept = some d →
      ¬(0 ≤ i ∧ i < (d.patients.length : Int)) →
      h.discharge_patient dept i = some (none, h)) ∧
    ∀ (ops : List Op) (g' : GameEngine), runOps GameEngine.empty ops = some g' →
      ∀ h ∈ g'.hospitals, bedsMatch h := by
  refine ⟨?_, ?_, ?_, ?_, ?_⟩
  · intro name e he
    simp only [Hospital.init] at he
    rw [List.mem_map] at he
    obtain ⟨c, hc, rfl⟩ := he
    exact ⟨rfl, rfl⟩
  · intro h p dept now b h' hm ha
    exact admit_bedsMatch hm ha
  · intro h dept i r h' hm hd
    exact discharge_bedsMatch hm hd
  · intro h dept i d hd hrange
    unfold Hospital.discharge_patient
    rw [hd]
    dsimp only
    rw [if_neg hrange]
  · intro ops g' hr h hmem
    have hg : GInv GameEngine.empty := by
      intro h0 hmem0
      exact absurd hmem0 (by simp [GameEngine.empty])
    exact (runOps_inv hr hg h hmem).2

/-- C10 witness: the record-count agreement evaluated on a concrete
state, admission, and out-of-range discharge. -/
theorem C10_occupied_matches_records_witness :
    bedsMatch (Hospital.init "Alpha") ∧
    (∃ h', (Hospital.init "Alpha").admit_patient wCase ("Cardiology") 5 =
      some (true, h') ∧ bedsMatch h') ∧
    ((Hospital.init "Alpha").discharge_patient ("Cardiology") 3 =
      some (none, Hospital.init "Alpha")) ∧
    (runOps GameEngine.empty wOps1 = some wG1 ∧ ∀ h ∈ wG1.hospitals, bedsMatch h) := by
  have hC := C10_occupied_matches_records
  refine ⟨by decide, ?_, ?_, by rfl, hC.2.2.2.2 wOps1 wG1 (by rfl)⟩
  · have ha : (Hospital.init ("Alpha")).admit_patient wCase ("Cardiology") 5 =
        some (true, ((Hospital.init ("Alpha")).admit_patient wCase
          ("Cardiology") 5 |>.getD (true, Hospital.init "")).2) := by rfl
    exact ⟨_, ha, hC.2.1 _ wCase ("Cardiology") 5 true _ (by decide) ha⟩
  · exact hC.2.2.2.1 (Hospital.init ("Alpha")) ("Cardiology") 3 wDCardio
      (by rfl) (by decide)

/-- C2: for a configured department, admit_patient with an available
bed increments occupied_beds, decrements available_beds, appends the
admitted-patient record to the department's list and the global list,
adds the patient's points to score, increments diagnosis_correct and
returns true; with available_beds = 0 it changes nothing and returns
false. -/
theorem C2_admit_patient_spec (h : Hospital) (p : PatientCase) (dept : String)
    (now : ℚ) (d : DeptRecord) (hd : h.departments.lookup dept = some d) :
    (0 < d.available_beds →
      ∃ h', h.admit_patient p dept now = some (true, h') ∧
        h'.departments.lookup dept = some
          { d with occupied_beds := d.occupied_beds + 1
                   available_beds := d.available_beds - 1
                   patients := d.patients ++ [admissionRecord p dept now] } ∧
        h'.admitted_patients = h.admitted_patients ++ [admissionRecord p dept now] ∧
        h'.score = h.score + p.points ∧
        h'.diagnosis_correct = h.diagnosis_correct + 1 ∧
        h'.name = h.name ∧ h'.referred_count = h.referred_count ∧
        h'.diagnosis_wrong = h.diagnosis_wrong) ∧
    (d.available_beds = 0 → h.admit_patient p dept now = some (false, h)) := by
  constructor
  · intro hav
    exact admit_patient_succeeds p now hd hav
  · intro h0
    unfold Hospital.admit_patient
    rw [hd]
    dsimp only
    rw [if_neg (by omega)]

/-- C2 witness: admission into a fresh ICU (2 free beds), evaluated
concretely. -/
theorem C2_admit_patient_spec_witness :
    0 < wDICU.available_beds ∧
    ∃ h', (Hospital.init "A").admit_patient wCase ("ICU") 7 = some (true, h') ∧
      h'.departments.lookup ("ICU") = some
        { wDICU with occupied_beds := wDICU.occupied_beds + 1
                     available_beds := wDICU.available_beds - 1
                     patients := wDICU.patients ++ [admissionRecord wCase ("ICU") 7] } ∧
      h'.admitted_patients = (Hospital.init "A").admitted_patients
        ++ [admissionRecord wCase ("ICU") 7] ∧
      h'.score = (Hospital.init "A").score + wCase.points ∧
      h'.diagnosis_correct = (Hospital.init "A").diagnosis_correct + 1 ∧
      h'.name = (Hospital.init "A").name ∧
      h'.referred_count = (Hospital.init "A").referred_count ∧
      h'.diagnosis_wrong = (Hospital.init "A").diagnosis_wrong :=
  ⟨by decide,
    (C2_admit_patient_spec (Hospital.init "A") wCase ("ICU") 7 wDICU (by rfl)).1
      (by decide)⟩

/-- C3: submit_diagnosis with an unknown hospital name or no stored
in-flight patient returns success = false with a message and leaves
the entire engine state unchanged. -/
theorem C3_submit_invalid_no_mutation (g : GameEngine) (hn cd : String)
    (t now : ℚ) (ts : String)
    (h : g.hospitals.find? (fun x => x.name == hn) = none ∨
      g.current_patients.lookup hn = none) :
    g.submit_diagnosis hn cd t now ts = some (invalidResult, g) ∧
    invalidResult.success = false ∧
    invalidResult.message = "Invalid hospital or patient" :=
  ⟨submit_invalid h cd t now ts, rfl, rfl⟩

/-- C3 witness: submitting for a hospital with no in-flight patient in
a concrete resolved state. -/
theorem C3_submit_invalid_no_mutation_witness :
    wSub6.2.current_patients.lookup ("Alpha") = none ∧
    wSub6.2.submit_diagnosis ("Alpha") ("ICU") 300 300 ("10:01:00") =
      some (invalidResult, wSub6.2) ∧
    invalidResult.success = false :=
  ⟨by rfl,
    (C3_submit_invalid_no_mutation wSub6.2 ("Alpha") ("ICU") 300 300 ("10:01:00")
      (Or.inr (by rfl))).1,
    rfl⟩

/-- C4: the time bonus is 1 exactly when submission_time minus the
stored timer is strictly below 15 (elapsed = 15 earns none); in the
correct-diagnosis-with-bed branch the outcome's points field is the
base point value plus the bonus, and the bonus is also added to the
hospital's score on top of the points added by admit_patient. -/
theorem C4_time_bonus (g : GameEngine) (hn cd : String) (t now : ℚ)
    (ts : String) (hospital : Hospital) (patient : InFlightPatient)
    (t0 : ℚ) (d : DeptRecord)
    (hh : g.hospitals.find? (fun x => x.name == hn) = some hospital)
    (hp : g.current_patients.lookup hn = some patient)
    (ht : g.diagnosis_timers.lookup hn = some t0)
    (hcd : (cd == patient.correct_dept) = true)
    (hd : hospital.departments.lookup cd = some d)
    (hav : 0 < d.available_beds) :
    ((if t - t0 < 15 then (1 : Int) else 0) = 1 ↔ t - t0 < 15) ∧
    ((15 : ℚ) ≤ t - t0 → (if t - t0 < 15 then (1 : Int) else 0) = 0) ∧
    ∃ r g' h', g.submit_diagnosis hn cd t now ts = some (r, g') ∧
      r.points = some (patient.points + (if t - t0 < 15 then 1 else 0)) ∧
      g'.hospitals.find? (fun x => x.name == hn) = some h' ∧
      h'.score = hospital.score + patient.points
        + (if t - t0 < 15 then 1 else 0) := by
  refine ⟨?_, ?_, ?_⟩
  · constructor
    · intro h1
      by_cases hlt : t - t0 < 15
      · exact hlt
      · rw [if_neg hlt] at h1
        exact absurd h1 (by decide)
    · intro hlt
      rw [if_pos hlt]
  · intro hge
    rw [if_neg (by exact not_lt.mpr hge)]
  · obtain ⟨h1, ha, hlk, hadm, hsc, hdc, hnm, hrc, hdw⟩ :=
      admit_patient_succeeds patient.toPatientCase now hd hav
    refine ⟨_, _, { h1 with score := h1.score + (if t - t0 < 15 then 1 else 0) },
      submit_admitted hh hp ht hcd ha t ts, rfl, ?_, ?_⟩
    · rw [resolve_submission_hospitals]
      refine find?_updateFirst_self hh ?_
      have := List.find?_some hh
      simp only [beq_iff_eq] at this ⊢
      rw [hnm]
      exact this
    · show h1.score + _ = _
      rw [hsc]

/-- C4 witness: the bonus arithmetic and score update evaluated on a
concrete first-round submission (elapsed 5 < 15). -/
theorem C4_time_bonus_witness :
    ((if (105 : ℚ) - 100 < 15 then (1 : Int) else 0) = 1 ↔
      (105 : ℚ) - 100 < 15) ∧
    ∃ r g' h', wEBase.submit_diagnosis ("Alpha") ("Cardiology") 105 105
        ("10:00:10") = some (r, g') ∧
      r.points = some (wPat.points + (if (105 : ℚ) - 100 < 15 then 1 else 0)) ∧
      g'.hospitals.find? (fun x => x.name == "Alpha") = some h' ∧
      h'.score = (Hospital.init ("Alpha")).score + wPat.points
        + (if (105 : ℚ) - 100 < 15 then 1 else 0) := by
  have hC := C4_time_bonus wEBase ("Alpha") ("Cardiology") 105 105 ("10:00:10")
    (Hospital.init ("Alpha")) wPat 100 wDCardio (by rfl) (by rfl) (by rfl)
    (by decide) (by rfl) (by decide)
  exact ⟨hC.1, hC.2.2⟩

/-- C5: misdiagnose decreases score by exactly points // 2 (floor
division, which rounds toward zero for the claim's non-negative
points: 5 → −2, 4 → −2, 3 → −1) and increments diagnosis_wrong;
refer_patient decreases score by exactly 1 and increments
referred_count; neither touches any other hospital field. -/
theorem C5_score_penalties (h : Hospital) (p : PatientCase) :
    ((h.misdiagnose p).score = h.score - p.points.fdiv 2 ∧
     (h.misdiagnose p).diagnosis_wrong = h.diagnosis_wrong + 1 ∧
     (h.misdiagnose p).name = h.name ∧
     (h.misdiagnose p).departments = h.departments ∧
     (h.misdiagnose p).admitted_patients = h.admitted_patients ∧
     (h.misdiagnose p).referred_count = h.referred_count ∧
     (h.misdiagnose p).diagnosis_correct = h.diagnosis_correct) ∧
    (0 ≤ p.points → p.points.fdiv 2 = p.points.tdiv 2) ∧
    ((5 : Int).fdiv 2 = 2 ∧ (4 : Int).fdiv 2 = 2 ∧ (3 : Int).fdiv 2 = 1) ∧
    ((h.refer_patient p).score = h.score - 1 ∧
     (h.refer_patient p).referred_count = h.referred_count + 1 ∧
     (h.refer_patient p).name = h.name ∧
     (h.refer_patient p).departments = h.departments ∧
     (h.refer_patient p).admitted_patients = h.admitted_patients ∧
     (h.refer_patient p).diagnosis_correct = h.diagnosis_correct ∧
     (h.refer_patient p).diagnosis_wrong = h.diagnosis_wrong) := by
  refine ⟨⟨rfl, rfl, rfl, rfl, rfl, rfl, rfl⟩, ?_, by decide,
    rfl, rfl, rfl, rfl, rfl, rfl, rfl⟩
  intro hp
  exact Int.fdiv_eq_tdiv hp (by decide)

/-- C5 witness: the penalties evaluated on a concrete hospital and the
4-point sample case. -/
theorem C5_score_penalties_witness :
    ((Hospital.init "A").misdiagnose wCase).score = 0 - (4 : Int).fdiv 2 ∧
    (0 : Int) ≤ wCase.points ∧ wCase.points.fdiv 2 = wCase.points.tdiv 2 ∧
    ((Hospital.init "A").refer_patient wCase).score = 0 - 1 := by
  have hC := C5_score_penalties (Hospital.init "A") wCase
  exact ⟨hC.1.1, by decide, hC.2.1 (by decide), hC.2.2.2.1⟩

/-- C6: when the engine holds a hospital with that name and an
in-flight patient for it, a resolved submit_diagnosis removes the
in-flight entry in every outcome branch, and a second call for the
same hospital before the next round returns the success = false
"invalid hospital or patient" outcome with no further change. -/
theorem C6_clears_in_flight (g : GameEngine) (hn cd : String) (t now : ℚ)
    (ts : String) (r : DiagnosisResult) (g' : GameEngine)
    (hospital : Hospital) (patient : InFlightPatient)
    (hh : g.hospitals.find? (fun x => x.name == hn) = some hospital)
    (hp : g.current_patients.lookup hn = some patient)
    (hs : g.submit_diagnosis hn cd t now ts = some (r, g')) :
    g'.current_patients.lookup hn = none ∧
    ∀ (cd' : String) (t' now' : ℚ) (ts' : String),
      g'.submit_diagnosis hn cd' t' now' ts' = some (invalidResult, g') ∧
      invalidResult.success = false ∧
      invalidResult.message = "Invalid hospital or patient" := by
  rcases submit_diagnosis_cases hs with ⟨hr, rfl, hfail⟩ |
    ⟨hosp2, pat2, t0, h2, logmsg, hh2, hp2, ht2, hrs, rfl, hname, htl, hinv, hbm⟩
  · rcases hfail with hf | hf
    · exact absurd (hh.symm.trans hf) (by simp)
    · exact absurd (hp.symm.trans hf) (by simp)
  · have hnone := resolve_submission_lookup_none g hn h2 ts logmsg
    exact ⟨hnone, fun cd' t' now' ts' =>
      ⟨submit_invalid (Or.inr hnone) cd' t' now' ts', rfl, rfl⟩⟩

/-- C6 witness: the in-flight entry is gone after a concrete resolved
submission, and resubmitting fails. -/
theorem C6_clears_in_flight_witness :
    wEBase.submit_diagnosis ("Alpha") ("Cardiology") 105 105 ("10:00:10") =
      some (wSub6.1, wSub6.2) ∧
    wSub6.2.current_patients.lookup ("Alpha") = none ∧
    wSub6.2.submit_diagnosis ("Alpha") ("Cardiology") 300 300 ("10:01:00") =
      some (invalidResult, wSub6.2) := by
  have hC := C6_clears_in_flight wEBase ("Alpha") ("Cardiology") 105 105
    ("10:00:10") wSub6.1 wSub6.2 (Hospital.init ("Alpha")) wPat
    (by rfl) (by rfl) (by rfl)
  exact ⟨by rfl, hC.1, (hC.2 ("Cardiology") 300 300 ("10:01:00")).1⟩

/-- C7 counterexample: the claim "diagnosis_correct + diagnosis_wrong
equals the number of resolved submit_diagnosis calls" is false on the
code: after three resolved submissions of which one was a referral
(Cardiology has 2 beds), the counters sum to 2, not 3 - the referral
branch increments only referred_count. -/
theorem C7_counterexample :
    ¬ (∀ (ops : List Op) (g' : GameEngine) (n : Nat),
      (∀ op ∈ ops, op.isEngineOp = true) →
      runCount ("Alpha") GameEngine.empty 0 ops = some (g', n) →
      ∀ h, g'.hospitals.find? (fun x => x.name == "Alpha") = some h →
        h.diagnosis_correct + h.diagnosis_wrong = n) := by
  intro H
  have hthis := H wOpsC7 wRC7.1 3 (by decide) (by rfl) wHC7 (by rfl)
  have hcomp : wHC7.diagnosis_correct + wHC7.diagnosis_wrong = 2 := by rfl
  rw [hcomp] at hthis
  exact absurd hthis (by decide)

/-- C7 amended: for every hospital, after any sequence of engine
operations, diagnosis_correct + diagnosis_wrong + referred_count
equals the number of submit_diagnosis calls for that hospital that did
not return the success = false failure outcome - a resolved referral
increments referred_count rather than either diagnosis counter. -/
theorem C7_resolved_counts (name : String) (ops : List Op)
    (g' : GameEngine) (n : Nat)
    (heng : ∀ op ∈ ops, op.isEngineOp = true)
    (hr : runCount name GameEngine.empty 0 ops = some (g', n)) :
    ∀ h, g'.hospitals.find? (fun x => x.name == name) = some h →
      h.diagnosis_correct + h.diagnosis_wrong + h.referred_count = n := by
  have hc0 : CountInv name GameEngine.empty 0 := by
    intro h hf
    exact absurd hf (by simp [GameEngine.empty])
  exact runCount_inv name heng hr hc0

/-- C7 witness: the amended count evaluated on the three-round
referral trace (2 correct + 0 wrong + 1 referred = 3 resolved). -/
theorem C7_resolved_counts_witness :
    runCount ("Alpha") GameEngine.empty 0 wOpsC7 = some (wRC7.1, 3) ∧
    wRC7.1.hospitals.find? (fun x => x.name == "Alpha") = some wHC7 ∧
    wHC7.diagnosis_correct + wHC7.diagnosis_wrong + wHC7.referred_count = 3 :=
  ⟨by rfl, by rfl,
    C7_resolved_counts ("Alpha") wOpsC7 wRC7.1 3 (by decide) (by rfl) wHC7 (by rfl)⟩

/-- C8: get_rankings returns the hospitals sorted by score descending,
stable for ties (equal scores keep the relative order of
initialize_game's input, which is the engine's stored order), with
each entry's rank equal to its 1-based position. -/
theorem C8_rankings_sorted_stable (g e : GameEngine) (names : List String)
    (ts : String) :
    (g.get_rankings).Pairwise (fun a b => b.score ≤ a.score) ∧
    (∀ (i : Nat) (hi : i < (g.get_rankings).length),
      ((g.get_rankings).get ⟨i, hi⟩).rank = i + 1) ∧
    (∀ s : Int, ((g.get_rankings).filter (fun r => r.score == s)).map
        (fun r => r.name) =
      (g.hospitals.filter (fun h => h.score == s)).map (fun h => h.name)) ∧
    (e.initialize_game names ts).hospitals.map (fun h => h.name) = names := by
  refine ⟨?_, ?_, ?_, ?_⟩
  · rw [get_rankings_eq, List.pairwise_map]
    exact pairwise_enum (mergeSort_pairwise g.hospitals)
  · intro i hi
    simp only [get_rankings_eq, List.get_eq_getElem, List.getElem_map,
      List.getElem_enum]
  · intro s
    rw [get_rankings_eq]
    rw [show (g.hospitals.mergeSort scoreDesc).enum =
      (g.hospitals.mergeSort scoreDesc).enumFrom 0 from rfl]
    rw [filter_enumFrom_map s (g.hospitals.mergeSort scoreDesc) 0]
    rw [mergeSort_filter_score]
  · rw [initialize_game_hospitals, List.map_map]
    have hcomp : ((fun h : Hospital => h.name) ∘ Hospital.init) = id :=
      funext fun nm => rfl
    rw [hcomp, List.map_id]

theorem wG8_rankings_length_pos : 0 < (wG8.get_rankings).length := by
  rw [get_rankings_eq, List.length_map, List.enum_length, List.length_mergeSort]
  decide

/-- C8 witness: the ranking properties evaluated on a concrete
two-team engine with tied scores (registration order Beta, Alpha). -/
theorem C8_rankings_sorted_stable_witness :
    (wG8.get_rankings).Pairwise (fun a b => b.score ≤ a.score) ∧
    ((wG8.get_rankings).get ⟨0, wG8_rankings_length_pos⟩).rank = 0 + 1 ∧
    ((wG8.get_rankings).filter (fun r => r.score == 0)).map (fun r => r.name) =
      (wG8.hospitals.filter (fun h => h.score == 0)).map (fun h => h.name) ∧
    (GameEngine.empty.initialize_game ["Beta", "Alpha"] ("10:00:00")).hospitals.map
      (fun h => h.name) = ["Beta", "Alpha"] := by
  have hC := C8_rankings_sorted_stable wG8 GameEngine.empty ["Beta", "Alpha"]
    ("10:00:00")
  exact ⟨hC.1, hC.2.1 0 wG8_rankings_length_pos, hC.2.2.1 0, hC.2.2.2⟩

/-- C9: following initialize_game, the activity log holds at most 50
entries after any sequence of add_to_log calls; each call appends the
new timestamped message; after 51 calls the log is exactly the entries
of calls 2..51, so the first call's message (when not repeated later)
is no longer present while the 51st is. -/
theorem C9_log_retention (g : GameEngine) (names : List String) (ts0 : String)
    (calls : List (String × String)) :
    ((runLog (g.initialize_game names ts0) calls).game_log).length ≤ 50 ∧
    (∀ ts m, ((runLog (g.initialize_game names ts0) calls).add_to_log ts m).game_log.getLast?
      = some (logEntry ts m)) ∧
    (∀ c cs, calls = c :: cs → cs.length = 50 →
      (runLog (g.initialize_game names ts0) calls).game_log =
        cs.map (fun q => logEntry q.1 q.2) ∧
      (logEntry c.1 c.2 ∉ cs.map (fun q => logEntry q.1 q.2) →
        logEntry c.1 c.2 ∉ (runLog (g.initialize_game names ts0) calls).game_log) ∧
      (∀ lastc, cs.getLast? = some lastc →
        logEntry lastc.1 lastc.2 ∈ (runLog (g.initialize_game names ts0) calls).game_log)) := by
  have hlen1 : (g.initialize_game names ts0).game_log.length = 1 := by
    rw [initialize_game_game_log]
    rfl
  refine ⟨?_, ?_, ?_⟩
  · exact runLog_length_le calls (by omega)
  · intro ts m
    exact add_to_log_getLast _ ts m
  · intro c cs hc hlen
    subst hc
    have hform := runLog_game_log (c :: cs) (g.initialize_game names ts0) (by omega)
    rw [initialize_game_game_log, List.map_cons, List.singleton_append] at hform
    have hidx : ([logEntry ts0 ("Game started with " ++ toString names.length
        ++ " teams: " ++ String.intercalate ", " names)].length
        + (c :: cs).length - 50) = 2 := by
      simp [hlen]
    rw [hidx] at hform
    rw [show ∀ (a b : String) (l : List String), List.drop 2 (a :: b :: l) = l
      from fun a b l => rfl] at hform
    refine ⟨hform, ?_, ?_⟩
    · intro hnot
      rw [hform]
      exact hnot
    · intro lastc hlast
      rw [hform]
      exact List.mem_map_of_mem _ (List.mem_of_getLast?_eq_some hlast)

/-- C9 witness: 51 concrete calls after initialization - final log is
exactly entries 2..51, bounded by 50, first message gone, 51st
present. -/
theorem C9_log_retention_witness :
    ((runLog wG9 wCalls).game_log).length ≤ 50 ∧
    (runLog wG9 wCalls).game_log = wCalls.tail.map (fun q => logEntry q.1 q.2) ∧
    logEntry ("10:00:07") ("message 0") ∉ (runLog wG9 wCalls).game_log ∧
    logEntry ("10:00:07") ("message 50") ∈ (runLog wG9 wCalls).game_log := by
  have hC := C9_log_retention GameEngine.empty ["Alpha"] ("10:00:00") wCalls
  have hsplit : wCalls = ("10:00:07", "message 0") :: wCalls.tail := by rfl
  obtain ⟨q1, q2, q3⟩ := hC.2.2 ("10:00:07", "message 0") wCalls.tail hsplit (by rfl)
  exact ⟨hC.1, q1, q2 (by decide),
    q3 ("10:00:07", "message 50") (by rfl)⟩

end MedBoard
